import Mathlib

/-!
# Verification of the ESPRESSO data-munging core (`espresso/espresso.py`)

This file gives a shallow embedding, in Lean 4, of the parts of the
`espresso` class (file `espresso/espresso.py`) that the specification's
testable properties talk about:

* the input-validation loop of `espresso.__init__` (lines 63-86),
* the feed/metadata inner merge of `espresso.__init__` (lines 168-172),
* the genotype rewriting of `espresso.__init__` (lines 146-148),
* the `AtLeastOneFeed` flag assignment (lines 191-194),
* the label management `attach_label` / `remove_labels` (lines 341-446),
* the aggregate combination `__add__` (lines 285-328).

Tables are modelled as lists of records (or as a `Table` of named columns
for the `pandas.merge` based `__add__`); `NaN` cells are `Option.none`;
Python exceptions are explicit error values.  The helper module
`espresso/_munger/munger.py` is not part of the sources at hand; the few
helpers from it that the properties need (`add_padrows`,
`detect_non_feeding_flies`, `assign_food_choice`, `get_expt_duration`)
are modelled from the specification text, and each such definition is
marked `Modelled from the spec:` in its doc comment.
-/

namespace Espresso

/-- The Python exception kinds raised by `espresso.py` (the code raises
builtin `NameError`, `ValueError`, `KeyError`, `TypeError`;
`pandas.errors.MergeError` comes from `pd.merge`; `IndexError` from
out-of-range lookups). -/
inductive PyError where
  | nameError
  | valueError
  | keyError
  | typeError
  | indexError
  | mergeError
  deriving DecidableEq, Repr

/-! ## Input validation (`espresso.__init__`, lines 50-86)

For each `FeedLog_*.csv` in the folder the constructor checks that the
companion `MetaData_*` file exists (raising `NameError` otherwise — the
spec's `MissingFileError`), then that the companion `FeedStats_*` file
exists; if it does not and no `expt_duration_seconds` was supplied it
raises `ValueError` (the spec's `MissingDurationError`).  If the
companion `FeedStats_*` file *does* exist, the code reads the FeedStats
counterpart of **every** feedlog in the folder (lines 81-86), which
fails with a file-read error as soon as any of those FeedStats files is
absent.  A folder is modelled as the list of its feedlogs, each knowing
whether its two companion files are present. -/

/-- One `FeedLog_*.csv` in the input folder, together with the presence
of its companion `MetaData_*` and `FeedStats_*` files. -/
structure FeedlogFile where
  hasMetadata : Bool
  hasFeedStats : Bool
  deriving DecidableEq, Repr

/-- The errors the validation loop can raise.  `missingFile` is the
`NameError` of lines 67-69 (spec: MissingFileError), `missingDuration`
the `ValueError` of lines 72-75 (spec: MissingDurationError), and
`fileNotFound` the read failure of lines 81-86 when
`munge.get_expt_duration` is pointed at a FeedStats path that does not
exist.  (`get_expt_duration` itself is in the absent `_munger` module;
modelled from the spec as total on existing files, so the only failure
kept is opening a missing file.) -/
inductive InitError where
  | missingFile
  | missingDuration
  | fileNotFound
  deriving DecidableEq, Repr

/-- The validation loop of `espresso.__init__` lines 63-86, iterating
over the feedlogs of the folder in order:
check `MetaData` first, then `FeedStats` (against the supplied
`expt_duration_seconds`); when a `FeedStats` file is present, all
feedlogs' FeedStats files are read (lines 81-86). -/
def checkFiles (allFiles : List FeedlogFile) (durationGiven : Bool) :
    List FeedlogFile → Option InitError
  | [] => none
  | f :: fs =>
    if !f.hasMetadata then some .missingFile
    else if !f.hasFeedStats then
      if !durationGiven then some .missingDuration
      else checkFiles allFiles durationGiven fs
    else if allFiles.any (fun g => !g.hasFeedStats) then some .fileNotFound
    else checkFiles allFiles durationGiven fs

/-- Validation of a whole folder: run the loop over all feedlogs.
`none` means validation passed and construction proceeds; `some e`
means `__init__` raised `e` (so no aggregate is exposed). -/
def validateFolder (files : List FeedlogFile) (durationGiven : Bool) :
    Option InitError :=
  checkFiles files durationGiven files

/-! ## Rows of the two tables

A row of the metadata table (`allflies`): fly identifier, genotype, and
the labels of the `Tube*` columns of that fly's metadata row (the
possible food choices of the fly).  A row of the feed-event table
(`allfeeds`): fly identifier, assigned food choice, relative time,
duration and volume (with `none` as the NaN sentinel of invalid
events), and the validity flag. -/

/-- One row of the fly-metadata table. -/
structure Fly where
  flyid : String
  genotype : String
  tubes : List String
  deriving DecidableEq, Repr

/-- One row of the feed-event table. -/
structure FeedEvent where
  flyid : String
  foodChoice : String
  relTime : Nat
  duration : Option Nat
  volume : Option Nat
  valid : Bool
  deriving DecidableEq, Repr

/-! ## The feeds/flies merge (`espresso.__init__`, lines 168-172)

The constructor merges the concatenated feed-event table with the
concatenated metadata table via
`pd.merge(allfeeds, allflies, left_on='FlyID', right_on='FlyID')`.
`pd.merge` defaults to `how='inner'`: each event row is paired with the
metadata rows carrying the same `FlyID`, and event rows with no match
produce no output row (and no exception). -/

/-- Inner equi-join of two lists of rows on a string key. -/
def innerMergeBy (k1 : α → String) (k2 : β → String)
    (xs : List α) (ys : List β) : List (α × β) :=
  xs.flatMap (fun x => ((ys.filter (fun y => k2 y == k1 x)).map (fun y => (x, y))))

/-- The merge of line 171-172: inner join of the feed table with the
metadata table on the fly identifier. -/
def mergeFeedsFlies (feeds : List FeedEvent) (flies : List Fly) :
    List (FeedEvent × Fly) :=
  innerMergeBy FeedEvent.flyid Fly.flyid feeds flies

/-! ## Padding rows (`espresso.__init__`, lines 112-117)

The constructor calls `munge.add_padrows(metadata_csv, feedlog_csv,
self.expt_duration_seconds)` with the comment "Define 2 padrows per fly,
per food choice".  `munge.add_padrows` lives in the `_munger` module,
which is not among the sources; it is modelled from the spec. -/

/-- Modelled from the spec: the two synthetic boundary rows of the
Padding Inserter for one fly and one food choice — "one at time zero,
one at the experiment's end time — with zero duration/volume,
validity=false" (spec section 4.3). -/
def padRowsFor (exptDuration : Nat) (m : Fly) : List FeedEvent :=
  m.tubes.flatMap (fun c =>
    [⟨m.flyid, c, 0, some 0, some 0, false⟩,
     ⟨m.flyid, c, exptDuration, some 0, some 0, false⟩])

/-- Modelled from the spec: `munge.add_padrows` (absent `_munger`
module).  "For every (fly, food-choice) combination, inserts two
synthetic boundary rows" into the feed table (spec section 4.3); a
fly's possible food choices are the tube labels of its metadata row. -/
def add_padrows (metadata : List Fly) (feedlog : List FeedEvent)
    (exptDuration : Nat) : List FeedEvent :=
  feedlog ++ metadata.flatMap (padRowsFor exptDuration)

/-! ## Non-feeding flies (`espresso.__init__`, lines 109-111 and 191-194)

Line 110 collects `munge.detect_non_feeding_flies(metadata_csv,
feedlog_csv)` (called on the raw feedlog, before padding rows are
added); `detect_non_feeding_flies` is in the absent `_munger` module
and is modelled from the spec.  Lines 192-194 then set the
`AtLeastOneFeed` column of `allflies` to `True` everywhere and to
`False` on the rows whose `FlyID` is in the collected list. -/

/-- Modelled from the spec: `munge.detect_non_feeding_flies` (absent
`_munger` module) — the fly identifiers of the metadata table that have
no feed event with a true (non-NaN) duration in the event table
("Every fly identifier in the metadata table with no true-duration
events produces at-least-one-feed = false", spec section 8). -/
def detect_non_feeding_flies (metadata : List Fly)
    (feedlog : List FeedEvent) : List String :=
  (metadata.filter (fun m =>
    !(feedlog.any (fun e => e.flyid == m.flyid && e.duration.isSome)))).map
    Fly.flyid

/-- Lines 192-194: the `AtLeastOneFeed` flag of one metadata row —
`True` unless the fly's identifier is in the non-feeding list. -/
def atLeastOneFeed (nonFeeding : List String) (m : Fly) : Bool :=
  !(nonFeeding.contains m.flyid)

/-! ## Food-choice assignment (`espresso.__init__`, lines 133-144)

Lines 134-138 build `food_choice_dict`, the `Tube*` columns of
`allflies` indexed by `FlyID`; line 140-144 applies
`munge.assign_food_choice(x['FlyID'], x['ChoiceIdx']+1,
food_choice_dict)` to every feed row.  `assign_food_choice` is in the
absent `_munger` module and is modelled from the spec (section 4.4):
it looks the fly up in the dictionary and "maps a numeric tube/chamber
index ... to a human-readable food-type label", and "fails with an
IndexError-equivalent if the index exceeds the number of configured
tubes for that fly"; per section 8, index 0 selects the fly's first
configured tube label. -/

/-- Modelled from the spec: `munge.assign_food_choice` (absent
`_munger` module).  The dictionary maps a fly identifier to the list of
its configured tube labels; index `0` selects the first label, and an
index at or beyond the number of configured tubes is an error. -/
def assign_food_choice (flyid : String) (idx : Nat)
    (dict : List (String × List String)) : Except PyError String :=
  match dict.find? (fun p => p.1 == flyid) with
  | none => .error .keyError
  | some p =>
    match p.2.get? idx with
    | some label => .ok label
    | none => .error .indexError

/-! ## Genotype rewriting (`espresso.__init__`, lines 146-148)

Lines 147-148 rewrite the whole `Genotype` column of `allflies`:
`allflies.Genotype.str.replace('W','w')` then
`.str.replace('iii','111')`.  Python's `str.replace` substitutes every
occurrence, scanning left to right without overlap.  Genotype values
are modelled as lists of characters. -/

/-- Python `s.replace('W','w')`: every character `W` becomes `w`. -/
def replaceW : List Char → List Char
  | [] => []
  | c :: cs => (if c = 'W' then 'w' else c) :: replaceW cs

/-- Python `s.replace('iii','111')`: scanning left to right, each
non-overlapping occurrence of `iii` becomes `111`. -/
def replaceIII : List Char → List Char
  | 'i' :: 'i' :: 'i' :: t => '1' :: '1' :: '1' :: replaceIII t
  | c :: cs => c :: replaceIII cs
  | [] => []

/-- The full genotype rewriting of lines 147-148: first `W` → `w`, then
`iii` → `111`. -/
def mungeGenotype (g : List Char) : List Char :=
  replaceIII (replaceW g)

/-- The `Genotype` column of `allflies` after lines 147-148, given the
raw metadata genotypes. -/
def fliesGenotypeCol (raw : List (List Char)) : List (List Char) :=
  raw.map mungeGenotype

/-- Length of the leading run of `i` characters (proof helper for the
`iii`-freeness of the rewritten genotypes). -/
def leadI : List Char → Nat
  | [] => 0
  | c :: t => if c = 'i' then leadI t + 1 else 0

/-- `runBound k l` holds when the leading run of `i` characters of `l`
has length at most `k` and every later run has length at most 2
(proof helper: `runBound 2 l` means `l` has no `iii` substring). -/
def runBound : Nat → List Char → Bool
  | _, [] => true
  | k, c :: t => if c = 'i' then decide (0 < k) && runBound (k - 1) t else runBound 2 t

/-! ## Label management (`attach_label`, lines 341-405, and
`remove_labels`, lines 411-446)

Both methods touch only the column sets of `self.flies` and
`self.feeds` and the `self.added_labels` list, so the state is modelled
at column level: the two column lists plus the optional `added_labels`
attribute (`none` models the attribute being absent).  Each operation
returns the Python exception it raised (if any) together with the state
of the object at the moment the method returned or raised — Python
mutates `self` in place, so a raise after a mutation leaves the
mutation behind. -/

/-- The column-level state of an `espresso` object. -/
structure LabelState where
  fliesCols : List String
  feedsCols : List String
  addedLabels : Option (List String)
  deriving DecidableEq, Repr

/-- Effect of `obj[label_name] = ...` on a column list: a new column is
appended at the end; an existing column is overwritten in place. -/
def addCol (cols : List String) (name : String) : List String :=
  if cols.contains name then cols else cols ++ [name]

/-- Lines 396-400: append the new label to `self.added_labels`,
creating the attribute as a one-element list when it is absent. -/
def pushAdded (s : LabelState) (name : String) : LabelState :=
  { s with addedLabels := some ((s.addedLabels.getD []) ++ [name]) }

/-- `espresso.attach_label` (lines 341-405) at column level.  The value
written into the new column is irrelevant to the column set, so
`label_value` is kept only as present/absent.  Order of effects in the
source: raise `ValueError` if neither or both of `label_value` /
`label_from_cols` are given; in the `label_from_cols` branch check each
column against `self.flies.columns` (raising `KeyError` before any
mutation), then assign the new column on `self.flies` and afterwards on
`self.feeds` — the `self.feeds` assignment re-reads `label_from_cols`
and raises `KeyError` if one of them is not a `feeds` column, at which
point `self.flies` has already been mutated. -/
def attach_label (s : LabelState) (labelName : String)
    (labelValue : Option String) (labelFromCols : Option (List String)) :
    Option PyError × LabelState :=
  match labelValue, labelFromCols with
  | none, none => (some .valueError, s)
  | some _, some _ => (some .valueError, s)
  | some _, none =>
    let s2 : LabelState :=
      { s with fliesCols := addCol s.fliesCols labelName,
               feedsCols := addCol s.feedsCols labelName }
    (none, pushAdded s2 labelName)
  | none, some cols =>
    if cols.all (fun c => s.fliesCols.contains c) then
      let s1 : LabelState := { s with fliesCols := addCol s.fliesCols labelName }
      if cols.all (fun c => s.feedsCols.contains c) then
        let s2 : LabelState := { s1 with feedsCols := addCol s1.feedsCols labelName }
        (none, pushAdded s2 labelName)
      else (some .keyError, s1)
    else (some .keyError, s)

/-- Lines 443-444: `for l in labels: self.added_labels.remove(l)`.
Python's `list.remove` deletes the first occurrence and raises
`ValueError` when the element is absent; the partially-updated
`added_labels` list is left behind on a raise. -/
def removeEach (s : LabelState) (added : List String) :
    List String → Option PyError × LabelState
  | [] => (none, { s with addedLabels := some added })
  | l :: ls =>
    if added.contains l then removeEach s (added.erase l) ls
    else (some .valueError, { s with addedLabels := some added })

/-- `espresso.remove_labels` (lines 411-446) at column level, for a
list argument (a string argument is wrapped into a one-element list at
line 428).  Order of effects in the source: raise `KeyError` when the
object has no `added_labels` attribute; compute `in_added`, the given
labels that are currently added, and raise `KeyError` when *none* of
them is; `self.flies.drop(labels, axis=1)` (pandas raises `KeyError`
without mutating when any requested label is not a column, and removes
all requested columns otherwise); the same on `self.feeds`; then delete
the `added_labels` attribute if `labels` equals it, and otherwise
`list.remove` each label from it in turn. -/
def remove_labels (s : LabelState) (labels : List String) :
    Option PyError × LabelState :=
  match s.addedLabels with
  | none => (some .keyError, s)
  | some added =>
    let inAdded := labels.filter (fun l => added.contains l)
    if inAdded.isEmpty then (some .keyError, s)
    else if labels.all (fun l => s.fliesCols.contains l) then
      let s1 : LabelState :=
        { s with fliesCols := s.fliesCols.filter (fun c => !labels.contains c) }
      if labels.all (fun l => s.feedsCols.contains l) then
        let s2 : LabelState :=
          { s1 with feedsCols := s1.feedsCols.filter (fun c => !labels.contains c) }
        if labels == added then (none, { s2 with addedLabels := none })
        else removeEach s2 added labels
      else (some .keyError, s1)
    else (some .keyError, s)

/-! ## Combining aggregates (`espresso.__add__`, lines 285-328)

`__add__` copies the two objects and replaces the copy's tables by
`pd.merge(self_copy.flies, other_copy.flies, how='outer')` (and the
same for `feeds`), then recomputes `genotypes` as
`self_copy.flies.Genotype.unique()` (line 320).  With no `on=` keyword,
`pd.merge` joins on all columns the two frames share, raising
`pandas.errors.MergeError` when they share none; an outer join keeps
every left row (paired with each matching right row, or NaN-filled when
unmatched) followed by every unmatched right row.  Tables are modelled
with explicit column names; a cell is `Option String`, `none` being
NaN (which `pd.merge` treats as a joinable value equal to itself). -/

/-- A pandas DataFrame at value level: named columns and rows of
optional cells. -/
structure Table where
  cols : List String
  rows : List (List (Option String))
  deriving DecidableEq, Repr

/-- The cell of a row at a named column (`none` when the column is
absent or the row too short). -/
def cellAt (cols : List String) (row : List (Option String))
    (c : String) : Option String :=
  (row.get? (cols.findIdx (fun c2 => c2 == c))).getD none

/-- The columns shared by the two frames — the join key of
`pd.merge(t1, t2)` with no `on=` keyword. -/
def commonCols (t1 t2 : Table) : List String :=
  t1.cols.filter (fun c => t2.cols.contains c)

/-- Whether a row of `t1` and a row of `t2` agree on every common
column. -/
def rowsMatch (common cols1 : List String) (r1 : List (Option String))
    (cols2 : List String) (r2 : List (Option String)) : Bool :=
  common.all (fun c => cellAt cols1 r1 c == cellAt cols2 r2 c)

/-- The columns of `t2` that `t1` does not have — they are appended to
the merged frame and NaN-filled on unmatched `t1` rows. -/
def mergeRightOnly (t1 t2 : Table) : List String :=
  t2.cols.filter (fun c => !t1.cols.contains c)

/-- The left block of the outer merge: every `t1` row paired with each
matching `t2` row, or NaN-filled on the `t2`-only columns when no `t2`
row matches. -/
def outerLeftRows (t1 t2 : Table) : List (List (Option String)) :=
  t1.rows.flatMap (fun r1 =>
    if (t2.rows.filter (fun r2 =>
        rowsMatch (commonCols t1 t2) t1.cols r1 t2.cols r2)).isEmpty then
      [r1 ++ (mergeRightOnly t1 t2).map (fun _ => none)]
    else
      (t2.rows.filter (fun r2 =>
        rowsMatch (commonCols t1 t2) t1.cols r1 t2.cols r2)).map
        (fun r2 => r1 ++ (mergeRightOnly t1 t2).map (fun c => cellAt t2.cols r2 c)))

/-- The right block of the outer merge: every `t2` row matched by no
`t1` row, rebuilt on the merged column list (NaN on the `t1`-only
columns). -/
def outerRightRows (t1 t2 : Table) : List (List (Option String)) :=
  (t2.rows.filter (fun r2 =>
    !t1.rows.any (fun r1 =>
      rowsMatch (commonCols t1 t2) t1.cols r1 t2.cols r2))).map
    (fun r2 =>
      t1.cols.map (fun c =>
        if (commonCols t1 t2).contains c then cellAt t2.cols r2 c else none)
        ++ (mergeRightOnly t1 t2).map (fun c => cellAt t2.cols r2 c))

/-- `pd.merge(t1, t2, how='outer')`: error when no column is shared;
otherwise every `t1` row paired with each matching `t2` row (NaN-filled
on the `t2`-only columns when unmatched), followed by every unmatched
`t2` row (NaN-filled on the `t1`-only columns). -/
def pdMergeOuter (t1 t2 : Table) : Except PyError Table :=
  if (commonCols t1 t2).isEmpty then .error .mergeError
  else .ok ⟨t1.cols ++ mergeRightOnly t1 t2,
            outerLeftRows t1 t2 ++ outerRightRows t1 t2⟩

/-- Line 320, `self_copy.flies.Genotype.unique()`: the distinct values
of the `Genotype` column in order of first appearance. -/
def genotypesOf (t : Table) : List (Option String) :=
  (t.rows.map (fun r => cellAt t.cols r "Genotype")).dedup

/-! ## Concrete instances used in counterexamples and witnesses -/

/-- A feed event of fly `F1`. -/
def evF1 : FeedEvent := ⟨"F1", "tubeA", 5, some 3, some 2, true⟩

/-- A feed event of fly `F2`, which has no metadata row in `metaF1`. -/
def evF2 : FeedEvent := ⟨"F2", "tubeA", 6, some 1, some 1, true⟩

/-- The metadata row of fly `F1`. -/
def metaF1 : Fly := ⟨"F1", "w1118", ["tubeA"]⟩

/-- An aggregate state with one added label `diet` next to the raw
columns `FlyID` and `Genotype`. -/
def c9State : LabelState :=
  ⟨["FlyID", "Genotype", "diet"], ["FlyID", "Genotype", "diet"], some ["diet"]⟩

/-- A flies table with 2 flies, all of genotype `g1`. -/
def tblA : Table :=
  ⟨["FlyID", "Genotype"], [[some "f1", some "g1"], [some "f2", some "g1"]]⟩

/-- A flies table with 3 flies, all of genotype `g2`. -/
def tblB : Table :=
  ⟨["FlyID", "Genotype"],
   [[some "f3", some "g2"], [some "f4", some "g2"], [some "f5", some "g2"]]⟩

/-! ## Helper lemmas -/

/-- A `flatMap` whose function returns the singleton of its argument on
every member is the identity. -/
lemma flatMap_eq_self {α : Type} (l : List α) (f : α → List α)
    (h : ∀ x ∈ l, f x = [x]) : l.flatMap f = l := by
  induction l with
  | nil => rfl
  | cons x l ih =>
    rw [List.flatMap_cons, h x (by simp), ih (fun y hy => h y (by simp [hy]))]
    rfl

/-- A `map` whose function fixes every member is the identity. -/
lemma map_eq_self {α : Type} (l : List α) (f : α → α)
    (h : ∀ x ∈ l, f x = x) : l.map f = l := by
  induction l with
  | nil => rfl
  | cons x l ih =>
    rw [List.map_cons, h x (by simp), ih (fun y hy => h y (by simp [hy]))]

/-- Filtering for a key that no list member carries gives the empty
list. -/
lemma filter_key_eq_nil {β : Type} {k : β → String} {ys : List β} {v : String}
    (h : v ∉ ys.map k) : ys.filter (fun y => k y == v) = [] := by
  rw [List.filter_eq_nil_iff]
  intro y hy hpred
  exact h (List.mem_map.mpr ⟨y, hy, beq_iff_eq.mp hpred⟩)

/-- When the keys of `ys` are pairwise distinct and `v` is among them,
exactly one member of `ys` carries the key `v`. -/
lemma filter_key_length_one {β : Type} {k : β → String} {ys : List β} {v : String}
    (hnodup : (ys.map k).Nodup) (hv : v ∈ ys.map k) :
    (ys.filter (fun y => k y == v)).length = 1 := by
  induction ys with
  | nil => simp at hv
  | cons y ys ih =>
    simp only [List.map_cons, List.nodup_cons] at hnodup
    by_cases hk : k y = v
    · rw [List.filter_cons_of_pos (by simpa using hk)]
      have hnil : ys.filter (fun y2 => k y2 == v) = [] :=
        filter_key_eq_nil (hk ▸ hnodup.1)
      simp [hnil]
    · rw [List.filter_cons_of_neg (by simpa using hk)]
      refine ih hnodup.2 ?_
      rcases List.mem_map.mp hv with ⟨z, hz, hkz⟩
      rcases List.mem_cons.mp hz with rfl | hz2
      · exact absurd hkz hk
      · exact List.mem_map.mpr ⟨z, hz2, hkz⟩

/-- An inner equi-join against a table with pairwise-distinct keys that
covers every left key has exactly one output row per left row. -/
lemma innerMergeBy_length {α β : Type} {k1 : α → String} {k2 : β → String}
    {xs : List α} {ys : List β}
    (hnodup : (ys.map k2).Nodup) (hcov : ∀ x ∈ xs, k1 x ∈ ys.map k2) :
    (innerMergeBy k1 k2 xs ys).length = xs.length := by
  induction xs with
  | nil => rfl
  | cons x xs ih =>
    have hx : (ys.filter (fun y => k2 y == k1 x)).length = 1 :=
      filter_key_length_one hnodup (hcov x (by simp))
    have hrest := ih (fun y hy => hcov y (by simp [hy]))
    simp only [innerMergeBy, List.flatMap_cons] at *
    rw [List.length_append, List.length_map, hx, hrest, List.length_cons,
      Nat.add_comm]

/-- Membership in the feeds/flies inner merge: the output rows are
exactly the event/metadata pairs agreeing on the fly identifier. -/
lemma mem_mergeFeedsFlies {feeds : List FeedEvent} {flies : List Fly}
    {p : FeedEvent × Fly} :
    p ∈ mergeFeedsFlies feeds flies ↔
      p.1 ∈ feeds ∧ p.2 ∈ flies ∧ p.2.flyid = p.1.flyid := by
  rcases p with ⟨e, m⟩
  simp only [mergeFeedsFlies, innerMergeBy, List.mem_flatMap, List.mem_map,
    List.mem_filter]
  constructor
  · rintro ⟨x, hx, y, ⟨hy, hkey⟩, heq⟩
    obtain ⟨rfl, rfl⟩ := Prod.mk.injEq .. ▸ heq
    exact ⟨hx, hy, by simpa using hkey⟩
  · rintro ⟨he, hm, hkey⟩
    exact ⟨e, he, m, ⟨hm, by simpa using hkey⟩, rfl⟩

/-- Reading every named cell of a well-formed row (duplicate-free
column names, matching length) reconstructs the row. -/
lemma map_cellAt_eq_self : ∀ (cols : List String) (row : List (Option String)),
    cols.Nodup → row.length = cols.length →
    cols.map (fun c => cellAt cols row c) = row := by
  intro cols
  induction cols with
  | nil =>
    intro row _ hlen
    simp only [List.length_nil] at hlen
    rw [List.length_eq_zero] at hlen
    simp [hlen]
  | cons c cs ih =>
    intro row hnodup hlen
    rcases row with _ | ⟨x, xs⟩
    · simp at hlen
    · rw [List.nodup_cons] at hnodup
      simp only [List.length_cons, Nat.succ.injEq] at hlen
      rw [List.map_cons]
      have hhead : cellAt (c :: cs) (x :: xs) c = x := by
        simp [cellAt, List.findIdx_cons]
      have htail : ∀ c2 ∈ cs,
          cellAt (c :: cs) (x :: xs) c2 = cellAt cs xs c2 := by
        intro c2 hc2
        have hne2 : (c == c2) = false :=
          beq_eq_false_iff_ne.mpr (fun hcc => hnodup.1 (hcc ▸ hc2))
        simp [cellAt, List.findIdx_cons, hne2]
      rw [hhead, List.map_congr_left htail, ih xs hnodup.2 hlen]

/-- When no `t2` row matches any `t1` row and `t2` brings no new
column, the left block of the outer merge is exactly the `t1` rows. -/
lemma outerLeftRows_no_match (A B : Table)
    (hro : mergeRightOnly A B = [])
    (hnm : ∀ r1 ∈ A.rows, ∀ r2 ∈ B.rows,
      rowsMatch (commonCols A B) A.cols r1 B.cols r2 = false) :
    outerLeftRows A B = A.rows := by
  unfold outerLeftRows
  apply flatMap_eq_self
  intro r1 hr1
  have hfil : B.rows.filter
      (fun r2 => rowsMatch (commonCols A B) A.cols r1 B.cols r2) = [] :=
    List.filter_eq_nil_iff.mpr (fun r2 hr2 => by simp [hnm r1 hr1 r2 hr2])
  rw [hfil, hro]
  simp

/-- When no `t2` row matches any `t1` row and the two tables carry the
same duplicate-free column list, the right block of the outer merge is
exactly the `t2` rows. -/
lemma outerRightRows_no_match (A B : Table)
    (hc : A.cols = B.cols) (hnodup : B.cols.Nodup)
    (hro : mergeRightOnly A B = [])
    (hcommon : commonCols A B = A.cols)
    (hlen : ∀ r ∈ B.rows, r.length = B.cols.length)
    (hnm : ∀ r1 ∈ A.rows, ∀ r2 ∈ B.rows,
      rowsMatch (commonCols A B) A.cols r1 B.cols r2 = false) :
    outerRightRows A B = B.rows := by
  unfold outerRightRows
  have hfil : B.rows.filter (fun r2 => !A.rows.any
      (fun r1 => rowsMatch (commonCols A B) A.cols r1 B.cols r2)) = B.rows := by
    apply List.filter_eq_self.mpr
    intro r2 hr2
    rw [Bool.not_eq_eq_eq_not, Bool.not_true, List.any_eq_false]
    exact fun r1 hr1 => by simp [hnm r1 hr1 r2 hr2]
  rw [hfil, hro]
  apply map_eq_self
  intro r2 hr2
  rw [List.map_nil, List.append_nil]
  have hcell : ∀ c ∈ A.cols,
      (if (commonCols A B).contains c then cellAt B.cols r2 c else none)
        = cellAt B.cols r2 c := by
    intro c hcm
    rw [if_pos]
    rw [hcommon]
    exact List.elem_iff.mpr hcm
  rw [List.map_congr_left hcell, hc, map_cellAt_eq_self B.cols r2 hnodup (hlen r2 hr2)]

/-- Removing the single label `name`, fresh for both tables and last
in `added_labels`, succeeds and restores both column lists. -/
lemma remove_labels_single_fresh (fl fe : List String) (name : String)
    (L : List String) (hfl : name ∉ fl) (hfe : name ∉ fe) :
    (remove_labels ⟨fl ++ [name], fe ++ [name], some (L ++ [name])⟩ [name]).1
        = none ∧
    (remove_labels ⟨fl ++ [name], fe ++ [name], some (L ++ [name])⟩ [name]).2.fliesCols
        = fl ∧
    (remove_labels ⟨fl ++ [name], fe ++ [name], some (L ++ [name])⟩ [name]).2.feedsCols
        = fe := by
  have hafl : ∀ y ∈ fl, ¬ y = name := fun y hy hya => hfl (hya ▸ hy)
  have hafe : ∀ y ∈ fe, ¬ y = name := fun y hy hya => hfe (hya ▸ hy)
  rcases L with _ | ⟨x, L2⟩
  · simp [remove_labels]
    exact ⟨hafl, hafe⟩
  · have hcond : (([name] : List String) == x :: L2 ++ [name]) = false := by
      rw [beq_eq_false_iff_ne]
      intro hlist
      have := congrArg List.length hlist
      simp at this
    simp [remove_labels, hcond, removeEach]
    exact ⟨hafl, hafe⟩

/-- Attaching a fresh label with a fixed `label_value` appends the
label column to both tables and records the label. -/
lemma attach_label_fresh_value (s : LabelState) (name v : String)
    (hfl : name ∉ s.fliesCols) (hfe : name ∉ s.feedsCols) :
    attach_label s name (some v) none =
      (none, ⟨s.fliesCols ++ [name], s.feedsCols ++ [name],
              some ((s.addedLabels.getD []) ++ [name])⟩) := by
  simp [attach_label, addCol, pushAdded, hfl, hfe]

/-- Attaching a fresh label derived from existing columns of both
tables appends the label column to both tables and records the
label. -/
lemma attach_label_fresh_cols (s : LabelState) (name : String)
    (cols : List String)
    (hfl : name ∉ s.fliesCols) (hfe : name ∉ s.feedsCols)
    (hc1 : ∀ c ∈ cols, c ∈ s.fliesCols) (hc2 : ∀ c ∈ cols, c ∈ s.feedsCols) :
    attach_label s name none (some cols) =
      (none, ⟨s.fliesCols ++ [name], s.feedsCols ++ [name],
              some ((s.addedLabels.getD []) ++ [name])⟩) := by
  have hb1 : (cols.all fun c => s.fliesCols.contains c) = true := by
    rw [List.all_eq_true]
    exact fun c hcm => List.elem_iff.mpr (hc1 c hcm)
  have hb2 : (cols.all fun c => s.feedsCols.contains c) = true := by
    rw [List.all_eq_true]
    exact fun c hcm => List.elem_iff.mpr (hc2 c hcm)
  simp [attach_label, addCol, pushAdded, hb1, hb2]
  rw [if_pos hc1, if_pos hc2, if_neg hfl, if_neg hfe]

/-- Running the validation loop over feedlogs that all pass their
checks and then one with a missing metadata file raises the missing
metadata error, whatever comes afterwards. -/
lemma checkFiles_prefix_ok {allFiles : List FeedlogFile} {d : Bool} :
    ∀ (pre : List FeedlogFile) (f : FeedlogFile) (post : List FeedlogFile),
    f.hasMetadata = false →
    (∀ g ∈ pre, g.hasMetadata = true ∧
      (g.hasFeedStats = true → allFiles.any (fun h2 => !h2.hasFeedStats) = false) ∧
      (g.hasFeedStats = false → d = true)) →
    checkFiles allFiles d (pre ++ f :: post) = some .missingFile := by
  intro pre
  induction pre with
  | nil =>
    intro f post hf _
    simp [checkFiles, hf]
  | cons g pre ih =>
    intro f post hf hpre
    obtain ⟨hm, hfs1, hfs2⟩ := hpre g (by simp)
    rcases hgfs : g.hasFeedStats with _ | _
    · have hd := hfs2 hgfs
      subst hd
      simp only [List.cons_append, checkFiles, hm, hgfs]
      simpa using ih f post hf (fun g2 hg2 => hpre g2 (by simp [hg2]))
    · have hany := hfs1 hgfs
      simp only [List.cons_append, checkFiles, hm, hgfs, hany]
      simpa using ih f post hf (fun g2 hg2 => hpre g2 (by simp [hg2]))

/-- The `W` → `w` rewriting leaves no `W` behind. -/
lemma not_W_mem_replaceW (s : List Char) : 'W' ∉ replaceW s := by
  induction s with
  | nil => simp [replaceW]
  | cons c cs ih =>
    by_cases hc : c = 'W'
    · simp [replaceW, hc, ih]
    · simp [replaceW, hc, ih]
      exact fun h => hc h.symm

/-- Characters of the `iii` → `111` rewriting come from the source or
are `1`. -/
lemma mem_replaceIII {c : Char} : ∀ s : List Char,
    c ∈ replaceIII s → c ∈ s ∨ c = '1' := by
  intro s
  induction s using replaceIII.induct with
  | case1 t ih =>
    intro hmem
    rw [replaceIII.eq_1] at hmem
    rcases List.mem_cons.mp hmem with rfl | hmem
    · exact Or.inr rfl
    rcases List.mem_cons.mp hmem with rfl | hmem
    · exact Or.inr rfl
    rcases List.mem_cons.mp hmem with rfl | hmem
    · exact Or.inr rfl
    rcases ih hmem with h | h
    · exact Or.inl (by simp [h])
    · exact Or.inr h
  | case2 x cs hside ih =>
    intro hmem
    rw [replaceIII.eq_2 x cs hside] at hmem
    rcases List.mem_cons.mp hmem with rfl | hmem
    · exact Or.inl (by simp)
    rcases ih hmem with h | h
    · exact Or.inl (by simp [h])
    · exact Or.inr h
  | case3 =>
    intro hmem
    rw [replaceIII.eq_3] at hmem
    exact absurd hmem (List.not_mem_nil c)

/-- `runBound` is monotone in its slack. -/
lemma runBound_mono : ∀ (l : List Char) {j k : Nat}, j ≤ k →
    runBound j l = true → runBound k l = true := by
  intro l
  induction l with
  | nil => intro j k _ _; rfl
  | cons c t ih =>
    intro j k hjk h
    by_cases hc : c = 'i'
    · simp only [runBound, if_pos hc, Bool.and_eq_true, decide_eq_true_eq] at h ⊢
      exact ⟨by omega, ih (by omega) h.2⟩
    · simp only [runBound, if_neg hc] at h ⊢
      exact h

/-- A list with no `iii` substring whose leading `i` run fits in `k`
satisfies `runBound k`. -/
lemma runBound_of_leadI_le : ∀ (l : List Char) {k : Nat},
    runBound 2 l = true → leadI l ≤ k → runBound k l = true := by
  intro l
  induction l with
  | nil => intro k _ _; rfl
  | cons c t ih =>
    intro k h2 hk
    by_cases hc : c = 'i'
    · simp only [leadI, if_pos hc] at hk
      simp only [runBound, if_pos hc, Bool.and_eq_true, decide_eq_true_eq] at h2 ⊢
      refine ⟨by omega, ?_⟩
      exact ih (runBound_mono t (by omega) h2.2) (by omega)
    · simp only [runBound, if_neg hc] at h2 ⊢
      exact h2

/-- The key invariant of the `iii` → `111` rewriting: its output has
no run of three `i` characters, and its leading `i` run is no longer
than the input's. -/
lemma replaceIII_runBound : ∀ s : List Char,
    runBound 2 (replaceIII s) = true ∧ leadI (replaceIII s) ≤ leadI s := by
  intro s
  induction s using replaceIII.induct with
  | case1 t ih =>
    rw [replaceIII.eq_1]
    constructor
    · simpa [runBound] using ih.1
    · simp [leadI]
  | case2 x cs hside ih =>
    obtain ⟨ih1, ih2⟩ := ih
    rw [replaceIII.eq_2 x cs hside]
    by_cases hx : x = 'i'
    · have hlead : leadI cs ≤ 1 := by
        rcases cs with _ | ⟨c1, cs1⟩
        · simp [leadI]
        · by_cases hc1 : c1 = 'i'
          · rcases cs1 with _ | ⟨c2, cs2⟩
            · simp [leadI, hc1]
            · by_cases hc2 : c2 = 'i'
              · exact (hside cs2 hx (by rw [hc1, hc2])).elim
              · simp [leadI, hc1, hc2]
          · simp [leadI, hc1]
      constructor
      · simp only [runBound, if_pos hx, Bool.and_eq_true, decide_eq_true_eq]
        refine ⟨by omega, ?_⟩
        exact runBound_of_leadI_le _ ih1 (by omega)
      · simp only [leadI, if_pos hx]
        omega
    · constructor
      · simp only [runBound, if_neg hx]
        exact ih1
      · simp [leadI, hx]
  | case3 =>
    rw [replaceIII.eq_3]
    exact ⟨rfl, Nat.le_refl _⟩

/-- `runBound` rejects any list containing three consecutive `i`
characters (for slack at most 2). -/
lemma runBound_append_iii : ∀ (p q : List Char) {k : Nat}, k ≤ 2 →
    runBound k (p ++ 'i' :: 'i' :: 'i' :: q) = false := by
  intro p
  induction p with
  | nil =>
    intro q k hk
    interval_cases k <;> simp [runBound]
  | cons c p2 ih =>
    intro q k hk
    by_cases hc : c = 'i'
    · rw [List.cons_append]
      simp only [runBound, if_pos hc]
      rw [ih q (by omega)]
      simp
    · rw [List.cons_append]
      simp only [runBound, if_neg hc]
      exact ih q (by omega)

/-! ## Claim theorems -/

/-- C7, counterexample.  The claim says every folder in which some
feedlog lacks its metadata file fails with MissingFileError.  In the
folder whose first feedlog has metadata but no FeedStats (with no
explicit duration supplied) and whose second feedlog lacks metadata,
the loop raises MissingDurationError at the first feedlog instead, so
the claim is false at this input. -/
theorem validate_missing_metadata_counterexample :
    ¬ ((∃ f ∈ ([⟨true, false⟩, ⟨false, true⟩] : List FeedlogFile),
          f.hasMetadata = false) →
        validateFolder [⟨true, false⟩, ⟨false, true⟩] false
          = some .missingFile) := by
  decide

/-- C7, amended.  If some feedlog lacks its metadata file, and every
feedlog checked before it passes its own checks (it has metadata, and
either it has FeedStats with no FeedStats file missing anywhere in the
folder, or it lacks FeedStats but an explicit duration was supplied),
then construction fails with MissingFileError — and, the validation
error being raised inside `__init__`, no aggregate is exposed. -/
theorem validate_missing_metadata_fails (pre post : List FeedlogFile)
    (f : FeedlogFile) (d : Bool) (hf : f.hasMetadata = false)
    (hpre : ∀ g ∈ pre, g.hasMetadata = true ∧
      (g.hasFeedStats = true →
        ∀ h2 ∈ pre ++ f :: post, h2.hasFeedStats = true) ∧
      (g.hasFeedStats = false → d = true)) :
    validateFolder (pre ++ f :: post) d = some .missingFile := by
  refine checkFiles_prefix_ok pre f post hf (fun g hg => ?_)
  obtain ⟨hm, hfs1, hfs2⟩ := hpre g hg
  refine ⟨hm, fun hgfs => ?_, hfs2⟩
  have := hfs1 hgfs
  simp only [List.any_eq_false]
  intro h2 hh2
  simp [this h2 hh2]

/-- C7, witness for the amended theorem at a one-feedlog folder whose
feedlog lacks its metadata file. -/
theorem validate_missing_metadata_fails_witness :
    validateFolder [⟨false, true⟩] false = some .missingFile :=
  validate_missing_metadata_fails [] [] ⟨false, true⟩ false rfl (by simp)

/-- C8, counterexample.  The claim says every folder in which some
feedlog lacks its FeedStats file, with no explicit duration supplied,
fails with MissingDurationError.  In the folder whose only feedlog
lacks both companion files, the metadata check fires first and the
loop raises MissingFileError instead, so the claim is false at this
input. -/
theorem validate_missing_feedstats_counterexample :
    ¬ ((∃ f ∈ ([⟨false, false⟩] : List FeedlogFile), f.hasFeedStats = false) →
        validateFolder [⟨false, false⟩] false = some .missingDuration) := by
  decide

/-- C8, amended.  If no explicit duration is supplied, some feedlog
has its metadata file but no FeedStats file, and every feedlog before
it has its metadata file and also lacks FeedStats, then construction
fails with MissingDurationError. -/
theorem validate_missing_feedstats_fails (pre post : List FeedlogFile)
    (f : FeedlogFile) (hm : f.hasMetadata = true) (hf : f.hasFeedStats = false)
    (hpre : ∀ g ∈ pre, g.hasMetadata = true ∧ g.hasFeedStats = false) :
    validateFolder (pre ++ f :: post) false = some .missingDuration := by
  cases pre with
  | nil => simp [validateFolder, checkFiles, hm, hf]
  | cons g pre2 =>
    obtain ⟨hgm, hgf⟩ := hpre g (by simp)
    simp [validateFolder, checkFiles, hgm, hgf]

/-- C8, witness for the amended theorem at a one-feedlog folder whose
feedlog has metadata but no FeedStats, with no duration supplied. -/
theorem validate_missing_feedstats_fails_witness :
    validateFolder [⟨true, false⟩] false = some .missingDuration :=
  validate_missing_feedstats_fails [] [] ⟨true, false⟩ rfl rfl (by simp)

/-- C3, counterexample.  The claim says an event row whose fly
identifier is absent from the metadata table makes construction raise
a DataIntegrityError rather than silently dropping the row.  At the
concrete input below the merge of lines 171-172 simply returns the
joined table without the `F2` event — the row is silently dropped and
no error value arises. -/
theorem merge_drops_unmatched_counterexample :
    mergeFeedsFlies [evF1, evF2] [metaF1] = [(evF1, metaF1)] ∧
    evF2 ∈ [evF1, evF2] ∧ (∀ m ∈ [metaF1], m.flyid ≠ evF2.flyid) ∧
    evF2 ∉ (mergeFeedsFlies [evF1, evF2] [metaF1]).map Prod.fst := by
  decide

/-- C3, amended.  The merge of lines 171-172 is an inner join on the
fly identifier: the merged rows are exactly the event/metadata pairs
agreeing on `FlyID`, and an event row whose fly identifier matches no
metadata row contributes no merged row at all (it is silently dropped;
no error is raised — the code has no DataIntegrityError). -/
theorem merge_is_inner_join_on_flyid (feeds : List FeedEvent)
    (flies : List Fly) (e : FeedEvent) (m : Fly) :
    ((e, m) ∈ mergeFeedsFlies feeds flies ↔
      e ∈ feeds ∧ m ∈ flies ∧ m.flyid = e.flyid) ∧
    ((∀ m2 ∈ flies, m2.flyid ≠ e.flyid) →
      ∀ p ∈ mergeFeedsFlies feeds flies, p.1 ≠ e) := by
  refine ⟨mem_mergeFeedsFlies, fun hnone p hp hpe => ?_⟩
  obtain ⟨-, hm2, hkey⟩ := mem_mergeFeedsFlies.mp hp
  exact hnone p.2 hm2 (hpe ▸ hkey)

/-- C3, witness for the amended theorem: in the concrete merge, the
unmatched `F2` event pairs with nothing. -/
theorem merge_is_inner_join_on_flyid_witness :
    (evF2, metaF1) ∉ mergeFeedsFlies [evF1, evF2] [metaF1] :=
  fun h =>
    (merge_is_inner_join_on_flyid [evF1, evF2] [metaF1] evF2 metaF1).2
      (by decide) _ h rfl

/-- C9 (code bug).  Calling `remove_labels` with a list mixing the
added label `diet` and the never-added raw column `Genotype` passes
the `len(in_added) == 0` guard (line 433), drops **both** columns from
`flies` and `feeds`, empties `added_labels`, and only then raises
`ValueError` from `list.remove` — the error the claim requires does
occur, but the aggregate state is corrupted rather than unchanged. -/
theorem remove_labels_mixed_corrupts_state :
    (remove_labels c9State ["diet", "Genotype"]).1 = some .valueError ∧
    (remove_labels c9State ["diet", "Genotype"]).2 ≠ c9State ∧
    "Genotype" ∈ c9State.fliesCols ∧
    (remove_labels c9State ["diet", "Genotype"]).2.fliesCols = ["FlyID"] ∧
    (remove_labels c9State ["diet", "Genotype"]).2.feedsCols = ["FlyID"] ∧
    (remove_labels c9State ["diet", "Genotype"]).2.addedLabels = some [] := by
  decide

/-- C1.  Attaching a label whose name is not already a column of
either table (with exactly one of `label_value` / `label_from_cols`
given, and — in the derived case — every source column present in both
tables) succeeds, and removing that same label then succeeds and
restores the column lists of both the flies and the feeds table
exactly. -/
theorem attach_label_remove_labels_roundtrip (s : LabelState)
    (name : String) (lv : Option String) (lfc : Option (List String))
    (hone : lv.isSome = !lfc.isSome)
    (hfl : name ∉ s.fliesCols) (hfe : name ∉ s.feedsCols)
    (hcols : ∀ cols, lfc = some cols →
      (∀ c ∈ cols, c ∈ s.fliesCols) ∧ (∀ c ∈ cols, c ∈ s.feedsCols)) :
    (attach_label s name lv lfc).1 = none ∧
    (remove_labels (attach_label s name lv lfc).2 [name]).1 = none ∧
    (remove_labels (attach_label s name lv lfc).2 [name]).2.fliesCols
        = s.fliesCols ∧
    (remove_labels (attach_label s name lv lfc).2 [name]).2.feedsCols
        = s.feedsCols := by
  rcases lv with _ | v <;> rcases lfc with _ | cols
  · simp at hone
  · obtain ⟨hc1, hc2⟩ := hcols cols rfl
    rw [attach_label_fresh_cols s name cols hfl hfe hc1 hc2]
    exact ⟨rfl, remove_labels_single_fresh s.fliesCols s.feedsCols name _ hfl hfe⟩
  · rw [attach_label_fresh_value s name v hfl hfe]
    exact ⟨rfl, remove_labels_single_fresh s.fliesCols s.feedsCols name _ hfl hfe⟩
  · simp at hone

/-- C1, witness: attach a fixed-value label `diet` to a two-column
aggregate and remove it again — both steps succeed and both column
lists return to their original value. -/
theorem attach_label_remove_labels_roundtrip_witness :
    (attach_label ⟨["FlyID", "Genotype"], ["FlyID", "Genotype"], none⟩
        "diet" (some "HighSugar") none).1 = none ∧
    (remove_labels
        (attach_label ⟨["FlyID", "Genotype"], ["FlyID", "Genotype"], none⟩
          "diet" (some "HighSugar") none).2 ["diet"]).1 = none ∧
    (remove_labels
        (attach_label ⟨["FlyID", "Genotype"], ["FlyID", "Genotype"], none⟩
          "diet" (some "HighSugar") none).2 ["diet"]).2.fliesCols
        = ["FlyID", "Genotype"] ∧
    (remove_labels
        (attach_label ⟨["FlyID", "Genotype"], ["FlyID", "Genotype"], none⟩
          "diet" (some "HighSugar") none).2 ["diet"]).2.feedsCols
        = ["FlyID", "Genotype"] :=
  attach_label_remove_labels_roundtrip
    ⟨["FlyID", "Genotype"], ["FlyID", "Genotype"], none⟩
    "diet" (some "HighSugar") none rfl (by decide) (by decide)
    (fun cols h => nomatch h)

/-- C4.  For valid input (metadata fly identifiers pairwise distinct
and covering every event row's fly identifier), the merged feed table
has exactly the raw event rows plus two padding rows per
(fly, food-choice) pair, the two being one at time zero and one at the
experiment's end time, with zero duration and volume and
validity false. -/
theorem merged_table_row_count (metadata : List Fly)
    (feedlog : List FeedEvent) (dur : Nat)
    (hnodup : (metadata.map Fly.flyid).Nodup)
    (hcov : ∀ e ∈ feedlog, e.flyid ∈ metadata.map Fly.flyid) :
    (mergeFeedsFlies (add_padrows metadata feedlog dur) metadata).length
      = feedlog.length
        + 2 * ((metadata.map (fun m => m.tubes.length)).sum) ∧
    ∀ m ∈ metadata, ∀ c ∈ m.tubes,
      (⟨m.flyid, c, 0, some 0, some 0, false⟩ : FeedEvent)
          ∈ add_padrows metadata feedlog dur ∧
      (⟨m.flyid, c, dur, some 0, some 0, false⟩ : FeedEvent)
          ∈ add_padrows metadata feedlog dur := by
  constructor
  · have hcov2 : ∀ e ∈ add_padrows metadata feedlog dur,
        e.flyid ∈ metadata.map Fly.flyid := by
      intro e he
      rcases List.mem_append.mp he with hraw | hpad
      · exact hcov e hraw
      · obtain ⟨m, hm, hrow⟩ := List.mem_flatMap.mp hpad
        obtain ⟨c, -, hr⟩ := List.mem_flatMap.mp hrow
        have : e.flyid = m.flyid := by
          simp only [List.mem_cons, List.not_mem_nil, or_false] at hr
          rcases hr with rfl | rfl <;> rfl
        exact this ▸ List.mem_map.mpr ⟨m, hm, rfl⟩
    unfold mergeFeedsFlies
    rw [innerMergeBy_length hnodup hcov2]
    unfold add_padrows
    rw [List.length_append, List.length_flatMap]
    congr 1
    have hlen : ∀ m : Fly, (padRowsFor dur m).length = 2 * m.tubes.length := by
      intro m
      unfold padRowsFor
      rw [List.length_flatMap]
      have : List.map (List.length ∘ fun c =>
            ([⟨m.flyid, c, 0, some 0, some 0, false⟩,
              ⟨m.flyid, c, dur, some 0, some 0, false⟩] : List FeedEvent))
          m.tubes = List.map (fun _ => 2) m.tubes := by
        exact List.map_congr_left (fun c _ => rfl)
      have hconst : ∀ l : List String,
          (List.map (fun _ => (2 : Nat)) l).sum = 2 * l.length := by
        intro l
        induction l with
        | nil => rfl
        | cons a l ih =>
          simp only [List.map_cons, List.sum_cons, ih, List.length_cons]
          omega
      rw [this, hconst]
    calc (List.map (List.length ∘ padRowsFor dur) metadata).sum
        = (List.map (fun m => 2 * m.tubes.length) metadata).sum := by
          exact congrArg List.sum (List.map_congr_left (fun m _ => hlen m))
      _ = 2 * (List.map (fun m => m.tubes.length) metadata).sum := by
          exact List.sum_map_mul_left metadata (fun m => m.tubes.length) 2
  · intro m hm c hc
    constructor
    · refine List.mem_append.mpr (Or.inr ?_)
      refine List.mem_flatMap.mpr ⟨m, hm, ?_⟩
      exact List.mem_flatMap.mpr ⟨c, hc, by simp⟩
    · refine List.mem_append.mpr (Or.inr ?_)
      refine List.mem_flatMap.mpr ⟨m, hm, ?_⟩
      exact List.mem_flatMap.mpr ⟨c, hc, by simp⟩

/-- C4, witness: one fly with one tube and one raw event — the merged
table has 1 + 2 rows and contains both boundary rows. -/
theorem merged_table_row_count_witness :
    (mergeFeedsFlies (add_padrows [metaF1] [evF1] 100) [metaF1]).length = 3 ∧
    (⟨"F1", "tubeA", 0, some 0, some 0, false⟩ : FeedEvent)
        ∈ add_padrows [metaF1] [evF1] 100 ∧
    (⟨"F1", "tubeA", 100, some 0, some 0, false⟩ : FeedEvent)
        ∈ add_padrows [metaF1] [evF1] 100 := by
  have h := merged_table_row_count [metaF1] [evF1] 100 (by decide) (by decide)
  have h2 := h.2 metaF1 (by simp) "tubeA" (by simp [metaF1])
  exact ⟨by simpa using h.1, h2.1, h2.2⟩

/-- C5.  A fly of the metadata table gets `AtLeastOneFeed = false`
exactly when no event row of its fly identifier has a true (non-NaN)
duration. -/
theorem atLeastOneFeed_iff_no_true_duration (metadata : List Fly)
    (feedlog : List FeedEvent) (m : Fly) (hm : m ∈ metadata) :
    (atLeastOneFeed (detect_non_feeding_flies metadata feedlog) m = false ↔
      ∀ e ∈ feedlog, e.flyid = m.flyid → e.duration = none) := by
  unfold atLeastOneFeed detect_non_feeding_flies
  rw [Bool.not_eq_false']
  simp only [List.elem_eq_mem, decide_eq_true_eq]
  constructor
  · intro hmem e he hfly
    obtain ⟨m2, hm2, hid⟩ := List.mem_map.mp hmem
    have hP := (List.mem_filter.mp hm2).2
    rw [Bool.not_eq_true', List.any_eq_false] at hP
    have := hP e he
    rw [hfly, ← hid] at this
    simpa using this
  · intro hnone
    refine List.mem_map.mpr ⟨m, List.mem_filter.mpr ⟨hm, ?_⟩, rfl⟩
    rw [Bool.not_eq_true', List.any_eq_false]
    intro e he
    by_cases hid : e.flyid = m.flyid
    · simp [hnone e he hid]
    · simp [hid]

/-- C5, witness: fly `F2` has a metadata row and no events at all, so
its flag is false; fly `F1` has a true-duration event, so its flag is
true. -/
theorem atLeastOneFeed_iff_no_true_duration_witness :
    atLeastOneFeed
      (detect_non_feeding_flies [metaF1, ⟨"F2", "w1118", ["tubeA"]⟩] [evF1])
      ⟨"F2", "w1118", ["tubeA"]⟩ = false ∧
    ¬ atLeastOneFeed
      (detect_non_feeding_flies [metaF1, ⟨"F2", "w1118", ["tubeA"]⟩] [evF1])
      metaF1 = false := by
  constructor
  · exact (atLeastOneFeed_iff_no_true_duration
      [metaF1, ⟨"F2", "w1118", ["tubeA"]⟩] [evF1]
      ⟨"F2", "w1118", ["tubeA"]⟩ (by simp)).mpr (by decide)
  · intro hfalse
    have := (atLeastOneFeed_iff_no_true_duration
      [metaF1, ⟨"F2", "w1118", ["tubeA"]⟩] [evF1] metaF1 (by simp)).mp hfalse
    have h2 := this evF1 (by simp) (by decide)
    simp [evF1] at h2

/-- C6.  Food-choice assignment looks the fly up in the tube
dictionary built from its metadata row; index 0 yields the first
configured tube label, and any index at or beyond the number of
configured tubes yields an IndexError rather than a default value. -/
theorem assign_food_choice_first_and_out_of_range (flyid : String)
    (tubes : List String) (dict : List (String × List String)) (t0 : String)
    (hfind : dict.find? (fun p => p.1 == flyid) = some (flyid, tubes)) :
    (tubes.head? = some t0 → assign_food_choice flyid 0 dict = .ok t0) ∧
    ∀ idx, tubes.length ≤ idx →
      assign_food_choice flyid idx dict = .error .indexError := by
  constructor
  · intro hhead
    unfold assign_food_choice
    rw [hfind]
    show (match tubes.get? 0 with
      | some label => Except.ok label
      | none => Except.error PyError.indexError) = Except.ok t0
    rw [List.get?_zero, hhead]
  · intro idx hidx
    unfold assign_food_choice
    rw [hfind]
    show (match tubes.get? idx with
      | some label => Except.ok label
      | none => Except.error PyError.indexError) = Except.error PyError.indexError
    rw [List.get?_eq_none.mpr hidx]

/-- C6, witness: a fly with two configured tubes — index 0 yields the
first label and index 2 is an error. -/
theorem assign_food_choice_first_and_out_of_range_witness :
    assign_food_choice "F1" 0 [("F1", ["sucrose", "water"])]
      = .ok "sucrose" ∧
    assign_food_choice "F1" 2 [("F1", ["sucrose", "water"])]
      = .error .indexError := by
  have h := assign_food_choice_first_and_out_of_range "F1" ["sucrose", "water"]
    [("F1", ["sucrose", "water"])] "sucrose" (by decide)
  exact ⟨h.1 rfl, h.2 2 (by decide)⟩

/-- C2.  First part: combining a 2-fly single-genotype aggregate with
a 3-fly aggregate of a different genotype (same well-formed schema)
yields a flies table of 5 rows whose genotype attribute has exactly 2
values.  Second part: when the two tables share no column at all (the
disjoint-schema case), `pd.merge` raises a MergeError instead of
producing a NaN-filled frame. -/
theorem add_combines_counts_and_rejects_disjoint :
    (∀ (A B : Table) (gA gB : String),
      A.cols = B.cols → "Genotype" ∈ A.cols → B.cols.Nodup →
      A.rows.length = 2 → B.rows.length = 3 →
      (∀ r ∈ A.rows, cellAt A.cols r "Genotype" = some gA) →
      (∀ r ∈ B.rows, cellAt B.cols r "Genotype" = some gB) →
      (∀ r ∈ B.rows, r.length = B.cols.length) →
      gA ≠ gB →
      ∃ T, pdMergeOuter A B = Except.ok T ∧ T.rows.length = 5 ∧
        (genotypesOf T).length = 2) ∧
    ∀ (C D : Table), (∀ c ∈ C.cols, c ∉ D.cols) →
      pdMergeOuter C D = Except.error .mergeError := by
  constructor
  · intro A B gA gB hc hg hnodup hlA hlB hgA hgB hlen hne
    have hcommon : commonCols A B = A.cols := by
      unfold commonCols
      apply List.filter_eq_self.mpr
      intro c hcm
      exact List.elem_iff.mpr (hc ▸ hcm)
    have hro : mergeRightOnly A B = [] := by
      unfold mergeRightOnly
      rw [List.filter_eq_nil_iff]
      intro c hcm
      have hca : c ∈ A.cols := by rw [hc]; exact hcm
      simp
      exact hca
    have hg2 : "Genotype" ∈ commonCols A B := by rw [hcommon]; exact hg
    have hnm : ∀ r1 ∈ A.rows, ∀ r2 ∈ B.rows,
        rowsMatch (commonCols A B) A.cols r1 B.cols r2 = false := by
      intro r1 hr1 r2 hr2
      rw [Bool.eq_false_iff]
      intro htrue
      unfold rowsMatch at htrue
      have hcells := List.all_eq_true.mp htrue "Genotype" hg2
      rw [hgA r1 hr1, hgB r2 hr2] at hcells
      simp [hne] at hcells
    have hL := outerLeftRows_no_match A B hro hnm
    have hR := outerRightRows_no_match A B hc hnodup hro hcommon hlen hnm
    have hok : pdMergeOuter A B =
        Except.ok ⟨A.cols ++ mergeRightOnly A B,
                   outerLeftRows A B ++ outerRightRows A B⟩ := by
      unfold pdMergeOuter
      rw [if_neg]
      intro hempty
      rw [List.isEmpty_iff] at hempty
      rw [hempty] at hg2
      exact List.not_mem_nil _ hg2
    refine ⟨_, hok, ?_, ?_⟩
    · simp only [hL, hR, List.length_append, hlA, hlB]
    · unfold genotypesOf
      simp only [hL, hR, hro, List.append_nil]
      have hcol : (A.rows ++ B.rows).map (fun r => cellAt A.cols r "Genotype")
          = List.replicate 2 (some gA) ++ List.replicate 3 (some gB) := by
        rw [List.map_append]
        congr 1
        · rw [List.eq_replicate_iff]
          refine ⟨by rw [List.length_map, hlA], fun b hb => ?_⟩
          obtain ⟨r, hr, rfl⟩ := List.mem_map.mp hb
          exact hgA r hr
        · rw [List.eq_replicate_iff]
          refine ⟨by rw [List.length_map, hlB], fun b hb => ?_⟩
          obtain ⟨r, hr, rfl⟩ := List.mem_map.mp hb
          rw [hc]
          exact hgB r hr
      rw [hcol]
      have hfive : List.replicate 2 (some gA) ++ List.replicate 3 (some gB)
          = [some gA, some gA, some gB, some gB, some gB] := rfl
      rw [hfive, List.dedup_cons_of_mem (by simp),
        List.dedup_cons_of_not_mem (by simp [hne]),
        List.dedup_cons_of_mem (by simp), List.dedup_cons_of_mem (by simp),
        List.dedup_cons_of_not_mem (by simp), List.dedup_nil]
      rfl
  · intro C D hdisj
    have hcm : commonCols C D = [] := by
      unfold commonCols
      rw [List.filter_eq_nil_iff]
      intro c hcmem hcontains
      exact hdisj c hcmem (List.elem_iff.mp hcontains)
    unfold pdMergeOuter
    rw [hcm]
    rfl

/-- C2, witness: the concrete 2-fly/3-fly tables combine into 5 rows
with 2 genotypes, and two tables sharing no column raise the
MergeError. -/
theorem add_combines_counts_and_rejects_disjoint_witness :
    (∃ T, pdMergeOuter tblA tblB = Except.ok T ∧ T.rows.length = 5 ∧
      (genotypesOf T).length = 2) ∧
    pdMergeOuter ⟨["FlyID"], [[some "f1"]]⟩ ⟨["Temperature"], [[some "22"]]⟩
      = Except.error .mergeError :=
  ⟨add_combines_counts_and_rejects_disjoint.1 tblA tblB "g1" "g2" rfl
      (by decide) (by decide) rfl rfl (by decide) (by decide) (by decide)
      (by decide),
   add_combines_counts_and_rejects_disjoint.2 _ _ (by decide)⟩

/-- C10.  Every value of the rewritten `Genotype` column (lines
147-148: every `W` replaced by `w`, then every `iii` replaced by
`111`) contains no `W` character and no `iii` substring, whatever the
raw metadata genotypes were — and hence neither do the `genotypes`
attribute and the merged feeds table, whose `Genotype` values are
drawn from this column. -/
theorem genotype_rewrite_no_W_no_iii (raw : List (List Char))
    (x : List Char) (hx : x ∈ fliesGenotypeCol raw) :
    'W' ∉ x ∧ ¬ (['i', 'i', 'i'] <:+: x) := by
  obtain ⟨g, -, rfl⟩ := List.mem_map.mp hx
  constructor
  · intro hW
    have hW2 : 'W' ∈ replaceIII (replaceW g) := hW
    rcases mem_replaceIII (replaceW g) hW2 with h | h
    · exact not_W_mem_replaceW g h
    · exact absurd h (by decide)
  · rintro ⟨p, q, hpq⟩
    have h1 : runBound 2 (mungeGenotype g) = true := by
      unfold mungeGenotype
      exact (replaceIII_runBound (replaceW g)).1
    rw [← hpq, List.append_assoc] at h1
    have h2 : runBound 2 (p ++ 'i' :: 'i' :: 'i' :: q) = true := h1
    rw [runBound_append_iii p q (Nat.le_refl 2)] at h2
    exact Bool.false_ne_true h2

/-- C10, witness at the raw metadata genotype value `Wiii`: the
rewritten column value contains neither a `W` nor an `iii`
substring. -/
theorem genotype_rewrite_no_W_no_iii_witness :
    'W' ∉ mungeGenotype ['W', 'i', 'i', 'i'] ∧
    ¬ (['i', 'i', 'i'] <:+: mungeGenotype ['W', 'i', 'i', 'i']) :=
  genotype_rewrite_no_W_no_iii [['W', 'i', 'i', 'i']]
    (mungeGenotype ['W', 'i', 'i', 'i']) (by decide)

end Espresso
